import Mathlib

/-!
Shallow embedding of the OPFS storage adapter and ingestion pipeline
(`src/opfs_store.rs`, `src/web_fs_utils.rs`, wired by `src/lib.rs`).

Machine integers are modelled as `Nat` (sizes, byte offsets) and `Int`
(millisecond timestamps); Rust byte strings (`String`/`Bytes`) are lists of
bytes (`List Nat`).  Host-library calls are modelled by their documented
contracts: `Bytes::slice` panics unless `start ≤ end ∧ end ≤ len`, a dropped
oneshot sender makes the receiver's `unwrap` panic, `Path::parse` rejects a
path with an empty `/`-separated segment, and the regex compiler's verdict on
a pattern enters as an explicit oracle.  A Rust panic is an explicit outcome
constructor (`panic` / `none` / a boolean flag), never a silent value.
-/

/-- Bytes of a Rust `String` / `Bytes` buffer (each entry one byte). -/
abbrev ByteSeq := List Nat

/-- A browser `File` as observed through the OPFS handle API: its reported
name, its `lastModified` millisecond timestamp and its byte content
(`size()` is the length of the content). -/
structure WebFile where
  name : String
  lastModifiedMillis : Int
  content : ByteSeq
deriving DecidableEq

/-- `FileResponse` from `web_fs_utils.rs`: the plain-data result the producer
task sends back over the oneshot channel. -/
structure FileResponse where
  bytes : Option ByteSeq
  name : String
  last_modified : Int
  size : Nat
deriving DecidableEq

/-- `get_file_data` (web_fs_utils.rs:151-189), success path: resolves the
file and answers with its metadata, materializing the byte content only when
`head` is false (`csv_bytes = if head { None } else { Some(...) }`). -/
def get_file_data (file : WebFile) (head : Bool) : FileResponse :=
  { bytes := if head then none else some file.content
  , name := file.name
  , last_modified := file.lastModifiedMillis
  , size := file.content.length }

/-- `object_store::ObjectMeta` as populated by this adapter.  `location` keeps
the raw path string (host-library path parsing is abstracted as the string
itself). -/
structure ObjectMeta where
  location : String
  last_modified : Int
  size : Nat
  e_tag : Option String
  version : Option String
deriving DecidableEq

/-- The `ObjectMeta` record built identically at opfs_store.rs:70-76 (`head`)
and opfs_store.rs:85-91 (`get_opts`): `e_tag = Some(response.name)`,
`version = None`. -/
def mkObjectMeta (location : String) (response : FileResponse) : ObjectMeta :=
  { location := location
  , last_modified := response.last_modified
  , size := response.size
  , e_tag := some response.name
  , version := none }

/-- `head` (opfs_store.rs:65-77), success path: `get_file_data` with
`head = true`, then the shared metadata record. -/
def head (location : String) (file : WebFile) : ObjectMeta :=
  mkObjectMeta location (get_file_data file true)

/-- `object_store::GetRange`: the three requested-range shapes. -/
inductive GetRange
| bounded (start stop : Nat)
| offset (o : Nat)
| suffix (n : Nat)
deriving DecidableEq

/-- `InvalidGetRange` (opfs_store.rs:15-21). -/
inductive InvalidGetRange
| startTooLarge (requested length : Nat)
deriving DecidableEq

/-- The range-resolution match of opfs_store.rs:98-122, applied to
`len = bytes.len()`. -/
def resolveRange (len : Nat) (range : GetRange) : Except InvalidGetRange (Nat × Nat) :=
  match range with
  | .bounded s e =>
      if s ≥ len then .error (.startTooLarge s len)
      else if e > len then .ok (s, len)
      else .ok (s, e)
  | .offset o =>
      if o ≥ len then .error (.startTooLarge o len)
      else .ok (o, len)
  | .suffix n => .ok (len - n, len)

/-- `Bytes::slice(a..b)` (opfs_store.rs:124): defined exactly when
`a ≤ b ∧ b ≤ len`; outside that the call panics (documented assertion of the
`bytes` crate), modelled as `none`. -/
def bytesSlice (bytes : ByteSeq) (a b : Nat) : Option ByteSeq :=
  if a ≤ b ∧ b ≤ bytes.length then some ((bytes.drop a).take (b - a)) else none

/-- Successful `GetResult`: the metadata record, the resolved range
`[start, stop)` and the single-chunk payload. -/
structure GetSuccess where
  meta : ObjectMeta
  start : Nat
  stop : Nat
  data : ByteSeq
deriving DecidableEq

/-- Outcome of `get_opts`: success, a range error propagated to the caller
(wrapped as a request-level generic error by `From<OpfsError>`), or a panic. -/
inductive GetOutcome
| success (r : GetSuccess)
| rangeError (e : InvalidGetRange)
| panic
deriving DecidableEq

/-- `get_opts` (opfs_store.rs:79-135): fetch the full content
(`head = false`), build the metadata record, then resolve the requested range
against `bytes.len()` and slice the payload; an absent range yields the full
buffer with range `0..len`. -/
def get_opts (location : String) (file : WebFile) (oRange : Option GetRange) : GetOutcome :=
  let response := get_file_data file false
  let meta := mkObjectMeta location response
  let bytes := response.bytes.getD []
  match oRange with
  | some range =>
      match resolveRange bytes.length range with
      | .error e => .rangeError e
      | .ok (a, b) =>
          match bytesSlice bytes a b with
          | some data => .success ⟨meta, a, b, data⟩
          | none => .panic
  | none => .success ⟨meta, 0, bytes.length, bytes⟩

/-- C1 (amended): with `L` the object's byte length, a resolving range request
follows the reference policy — `Bounded(start,end)` with `start < L` and
`start ≤ end` yields `[start, min end L)`, `OffsetToEnd(start)` with
`start < L` yields `[start, L)`, `SuffixLength(n)` yields `[L - n, L)`
(saturating subtraction, never an error), and an absent range yields `[0, L)`
— and in each of these cases the payload is exactly the byte slice of the
object covering the resolved range.  (The unamended claim also covered
`Bounded` with `end < start`, where the code panics instead; see the
counterexample.) -/
theorem get_opts_range_policy (loc : String) (file : WebFile) :
    (∀ s e, s < file.content.length → s ≤ e →
      get_opts loc file (some (.bounded s e)) =
        .success ⟨mkObjectMeta loc (get_file_data file false), s,
          min e file.content.length,
          (file.content.drop s).take (min e file.content.length - s)⟩)
  ∧ (∀ o, o < file.content.length →
      get_opts loc file (some (.offset o)) =
        .success ⟨mkObjectMeta loc (get_file_data file false), o,
          file.content.length, file.content.drop o⟩)
  ∧ (∀ n,
      get_opts loc file (some (.suffix n)) =
        .success ⟨mkObjectMeta loc (get_file_data file false),
          file.content.length - n, file.content.length,
          file.content.drop (file.content.length - n)⟩)
  ∧ get_opts loc file none =
      .success ⟨mkObjectMeta loc (get_file_data file false), 0,
        file.content.length, file.content⟩ := by
  refine ⟨?_, ?_, ?_, ?_⟩
  · intro s e hs hse
    by_cases he : e > file.content.length
    · simp [get_opts, resolveRange, bytesSlice, get_file_data, Nat.not_le.mpr hs,
        he, Nat.le_of_lt hs, Nat.min_eq_right (Nat.le_of_lt he)]
    · simp [get_opts, resolveRange, bytesSlice, get_file_data, Nat.not_le.mpr hs,
        he, hse, Nat.le_of_not_lt he, Nat.min_eq_left (Nat.le_of_not_lt he)]
  · intro o ho
    simp [get_opts, resolveRange, bytesSlice, get_file_data, Nat.not_le.mpr ho,
      Nat.le_of_lt ho]
  · intro n
    simp [get_opts, resolveRange, bytesSlice, get_file_data, Nat.sub_le]
  · simp [get_opts, get_file_data]

/-- Witness for C1's amended theorem at a concrete input: a six-byte object,
`Bounded(2,4)`, `OffsetToEnd(4)`, `SuffixLength(9)` and no range. -/
theorem get_opts_range_policy_witness :
    get_opts ("f.csv") ⟨"f.csv", 0, [10, 11, 12, 13, 14, 15]⟩ (some (.bounded 2 4)) =
      .success ⟨mkObjectMeta ("f.csv") (get_file_data ⟨"f.csv", 0, [10, 11, 12, 13, 14, 15]⟩ false),
        2, 4, [12, 13]⟩
  ∧ get_opts ("f.csv") ⟨"f.csv", 0, [10, 11, 12, 13, 14, 15]⟩ (some (.suffix 9)) =
      .success ⟨mkObjectMeta ("f.csv") (get_file_data ⟨"f.csv", 0, [10, 11, 12, 13, 14, 15]⟩ false),
        0, 6, [10, 11, 12, 13, 14, 15]⟩ := by
  constructor
  · have h := (get_opts_range_policy ("f.csv") ⟨"f.csv", 0, [10, 11, 12, 13, 14, 15]⟩).1
      2 4 (by decide) (by decide)
    simpa using h
  · have h := (get_opts_range_policy ("f.csv") ⟨"f.csv", 0, [10, 11, 12, 13, 14, 15]⟩).2.2.1 9
    simpa using h

/-- C1 counterexample: on a six-byte object, `Bounded(5,3)` resolves
(`start = 5 < 6`), so the unamended claim predicts a returned payload equal to
the slice covering `[5, min 3 6) = [5,3)`; the code instead panics inside
`Bytes::slice` (start greater than end) and returns nothing. -/
theorem get_opts_inverted_bounded_no_payload :
    get_opts ("d.csv") ⟨"d.csv", 0, [0, 1, 2, 3, 4, 5]⟩ (some (.bounded 5 3)) = .panic
  ∧ get_opts ("d.csv") ⟨"d.csv", 0, [0, 1, 2, 3, 4, 5]⟩ (some (.bounded 5 3)) ≠
      .success ⟨mkObjectMeta ("d.csv") (get_file_data ⟨"d.csv", 0, [0, 1, 2, 3, 4, 5]⟩ false),
        5, 3, []⟩ := by
  constructor
  · rfl
  · decide

/-- C2: range resolution in `get_opts` fails with `StartTooLarge` exactly when
the requested range is `Bounded`/`OffsetToEnd` with `start ≥ L`, and the error
carries `requested = start` and `length = L`; `SuffixLength` and an absent
range never produce a range error.  The error value is returned directly to
the caller (`.context(RangeSnafu)?` at opfs_store.rs:123). -/
theorem get_opts_start_too_large (loc : String) (file : WebFile) :
    (∀ s e, s ≥ file.content.length →
      get_opts loc file (some (.bounded s e)) =
        .rangeError (.startTooLarge s file.content.length))
  ∧ (∀ o, o ≥ file.content.length →
      get_opts loc file (some (.offset o)) =
        .rangeError (.startTooLarge o file.content.length))
  ∧ (∀ s e, s < file.content.length →
      ∀ err, get_opts loc file (some (.bounded s e)) ≠ .rangeError err)
  ∧ (∀ o, o < file.content.length →
      ∀ err, get_opts loc file (some (.offset o)) ≠ .rangeError err)
  ∧ (∀ n err, get_opts loc file (some (.suffix n)) ≠ .rangeError err)
  ∧ (∀ err, get_opts loc file none ≠ .rangeError err) := by
  refine ⟨?_, ?_, ?_, ?_, ?_, ?_⟩
  · intro s e hs
    simp [get_opts, resolveRange, get_file_data, hs]
  · intro o ho
    simp [get_opts, resolveRange, get_file_data, ho]
  · intro s e hs err
    by_cases he : e > file.content.length <;>
      simp [get_opts, resolveRange, bytesSlice, get_file_data, Nat.not_le.mpr hs, he] <;>
      split <;> simp
  · intro o ho err
    simp [get_opts, resolveRange, bytesSlice, get_file_data, Nat.not_le.mpr ho] <;>
      split <;> simp
  · intro n err
    simp [get_opts, resolveRange, bytesSlice, get_file_data, Nat.sub_le]
  · intro err
    simp [get_opts, get_file_data]

/-- Witness for C2 at concrete inputs: on a two-byte object, `Bounded(2,5)`
and `OffsetToEnd(3)` fail with `StartTooLarge{requested, length = 2}`, and
`SuffixLength(9)` does not produce a range error. -/
theorem get_opts_start_too_large_witness :
    get_opts ("w.csv") ⟨"w.csv", 0, [7, 8]⟩ (some (.bounded 2 5)) =
      .rangeError (.startTooLarge 2 2)
  ∧ get_opts ("w.csv") ⟨"w.csv", 0, [7, 8]⟩ (some (.offset 3)) =
      .rangeError (.startTooLarge 3 2)
  ∧ get_opts ("w.csv") ⟨"w.csv", 0, [7, 8]⟩ (some (.suffix 9)) ≠
      .rangeError (.startTooLarge 0 2) := by
  refine ⟨?_, ?_, ?_⟩
  · exact (get_opts_start_too_large ("w.csv") ⟨"w.csv", 0, [7, 8]⟩).1 2 5 (by decide)
  · exact (get_opts_start_too_large ("w.csv") ⟨"w.csv", 0, [7, 8]⟩).2.1 3 (by decide)
  · exact (get_opts_start_too_large ("w.csv") ⟨"w.csv", 0, [7, 8]⟩).2.2.2.2.1 9
      (.startTooLarge 0 2)

/-- C4 (code bug): on a ten-byte object, `get` with `Bounded(5,3)`
(`end < start`, `start < L`) neither returns a zero-length payload nor an
error: range resolution succeeds with the inverted range `5..3` and
`Bytes::slice(5..3)` panics (its documented assertion `start ≤ end` fails),
so the operation crashes instead of completing with a defined outcome. -/
theorem get_opts_bounded_end_before_start_crashes :
    get_opts ("t.csv") ⟨"t.csv", 0, [1, 2, 3, 4, 5, 6, 7, 8, 9, 10]⟩
      (some (.bounded 5 3)) = .panic := by
  rfl

/-- C5: the `FileResponse` produced for a metadata-only (`head = true`) call
carries no bytes, and the one produced for a content (`head = false`) call
carries exactly the full file content; `head` (opfs_store.rs:68) passes
`true`, `get_opts` (opfs_store.rs:82) passes `false`. -/
theorem get_file_data_bytes_policy (file : WebFile) :
    (get_file_data file true).bytes = none
  ∧ (get_file_data file false).bytes = some file.content := by
  constructor
  · rfl
  · rfl

/-- An entry yielded by iterating the data-root directory handle's values:
either a plain file or a sub-directory handle. -/
inductive FsEntry
| file (f : WebFile)
| directory (name : String)
deriving DecidableEq

/-- Split a character list at every delimiter `'/'` (the segments the path
parser inspects). -/
def splitSlash : List Char → List (List Char)
  | [] => [[]]
  | c :: rest =>
      match splitSlash rest with
      | [] => [[]]
      | seg :: segs => if c = '/' then [] :: seg :: segs else (c :: seg) :: segs

/-- `object_store::path::Path::parse` over the character list of the input:
strip one leading and one trailing delimiter, then reject the path
(`EmptySegment`) if any `/`-separated segment of the remainder is empty.  The
library's further per-segment character checks are abstracted as accepting —
irrelevant below, because the empty-segment rejection already fires on every
path the lister builds.  `none` models `Err`, which the source unwraps. -/
def pathParseList (cs : List Char) : Option (List Char) :=
  let cs1 := if cs.head? = some '/' then cs.tail else cs
  let cs2 := if cs1.getLast? = some '/' then cs1.dropLast else cs1
  if (splitSlash cs2).all (fun seg => !seg.isEmpty) then some cs2 else none

/-- `Path::parse` on a Rust string (called at web_fs_utils.rs:213). -/
def pathParse (s : String) : Option String :=
  (pathParseList s.toList).map String.mk

/-- The producer loop of `get_files` (web_fs_utils.rs:203-220): every entry is
type-asserted to be a file handle (`assert!` — a sub-directory panics); for a
file entry the logical path `"opfs://data/" ++ name` is built and parsed with
`Path::parse(path_str).unwrap()` (an `Err` panics) before the metadata record
(`e_tag = None`) is built and sent.  Result: the records sent over the channel
before the loop stopped, and whether the producer panicked. -/
def get_files (entries : List FsEntry) : List ObjectMeta × Bool :=
  match entries with
  | [] => ([], false)
  | .file f :: rest =>
      match pathParse ("opfs://data/" ++ f.name) with
      | some loc =>
          let m : ObjectMeta :=
            { location := loc
            , last_modified := f.lastModifiedMillis
            , size := f.content.length
            , e_tag := none
            , version := none }
          let r := get_files rest
          (m :: r.1, r.2)
      | none => ([], true)
  | .directory _ :: _ => ([], true)

/-- Helper: `splitSlash` always yields at least one segment. -/
theorem splitSlash_ne_nil (cs : List Char) : splitSlash cs ≠ [] := by
  induction cs with
  | nil => simp [splitSlash]
  | cons c rest ih =>
      cases h : splitSlash rest with
      | nil => simp [splitSlash, h]
      | cons s ss =>
          simp only [splitSlash, h]
          split <;> simp

/-- Helper: a character list starting `o p f s : / /` splits with an empty
segment, so the segment check fails on it whatever follows. -/
theorem splitSlash_opfs_all_false (t : List Char) :
    (splitSlash ('o' :: 'p' :: 'f' :: 's' :: ':' :: '/' :: '/' :: t)).all
      (fun seg => !seg.isEmpty) = false := by
  obtain ⟨s, ss, hs⟩ : ∃ s ss, splitSlash t = s :: ss := by
    cases h : splitSlash t with
    | nil => exact absurd h (splitSlash_ne_nil t)
    | cons s ss => exact ⟨s, ss, rfl⟩
  simp [splitSlash, hs]

/-- Helper: `Path::parse` fails (`EmptySegment`) on every character list of
the form `o p f s : / / …` — the two adjacent slashes after the scheme
survive the prefix/suffix strip. -/
theorem pathParseList_opfs_none (t : List Char) :
    pathParseList ('o' :: 'p' :: 'f' :: 's' :: ':' :: '/' :: '/' :: t) = none := by
  have hhead : ¬(('o' :: 'p' :: 'f' :: 's' :: ':' :: '/' :: '/' :: t).head? = some '/') := by
    simp only [List.head?_cons, Option.some.injEq]
    decide
  simp only [pathParseList]
  rw [if_neg hhead]
  by_cases hl : ('o' :: 'p' :: 'f' :: 's' :: ':' :: '/' :: '/' :: t).getLast? = some '/'
  · rw [if_pos hl]
    cases t with
    | nil => rfl
    | cons c ct =>
        have hd : ('o' :: 'p' :: 'f' :: 's' :: ':' :: '/' :: '/' :: c :: ct).dropLast
            = 'o' :: 'p' :: 'f' :: 's' :: ':' :: '/' :: '/' :: (c :: ct).dropLast := by
          simp [List.dropLast]
        rw [hd]
        have hfalse := splitSlash_opfs_all_false ((c :: ct).dropLast)
        simp [hfalse]
  · rw [if_neg hl]
    have hfalse := splitSlash_opfs_all_false t
    simp [hfalse]

/-- Helper: the logical path the lister projects for any file name always
fails `Path::parse`, so the producer's `.unwrap()` panics before `tx.send`. -/
theorem pathParse_projected_none (name : String) :
    pathParse ("opfs://data/" ++ name) = none := by
  obtain ⟨nl⟩ := name
  show (pathParseList ('o' :: 'p' :: 'f' :: 's' :: ':' :: '/' :: '/' ::
    'd' :: 'a' :: 't' :: 'a' :: '/' :: nl)).map String.mk = none
  rw [pathParseList_opfs_none]
  rfl

/-- C9 (code bug): on a data root holding the single plain file `a.arrow`, the
claim says listing emits one record with path `opfs://data/a.arrow`, and that
a non-file entry would be skipped silently; instead
`Path::parse("opfs://data/a.arrow").unwrap()` panics — the projected string
always carries an empty segment between the two slashes — before any record
is sent, and a sub-directory entry panics the producer's type assertion.  No
record is ever emitted. -/
theorem get_files_first_entry_panics :
    get_files [FsEntry.file ⟨"a.arrow", 1700000000000, [1, 2, 3]⟩] = ([], true)
  ∧ pathParse ("opfs://data/a.arrow") = none
  ∧ get_files [FsEntry.directory ("sub")] = ([], true) := by
  refine ⟨rfl, rfl, rfl⟩

/-- Helper: the lister never sends a record — every file entry dies at the
path parse, every other entry at the type assertion. -/
theorem get_files_sends_nothing (entries : List FsEntry) :
    (get_files entries).1 = [] := by
  cases entries with
  | nil => rfl
  | cons e rest =>
      cases e with
      | file f => simp [get_files, pathParse_projected_none f.name]
      | directory d => rfl

/-- C6: every `ObjectMetadata` record actually returned by `head`, `get` or
`list` carries `eTag` present and derived from the underlying file's reported
name: `head` and `get` set `e_tag = Some(response.name)` (a weak identity
marker, not a content hash), and `list` returns no records at all — its
producer panics parsing the projected path before any send — so the claim
holds vacuously for it. -/
theorem e_tag_policy (loc : String) (file : WebFile) (oRange : Option GetRange)
    (r : GetSuccess) (entries : List FsEntry) :
    (head loc file).e_tag = some file.name
  ∧ (get_opts loc file oRange = .success r → r.meta.e_tag = some file.name)
  ∧ (get_files entries).1 = []
  ∧ (∀ m ∈ (get_files entries).1, ∃ t, m.e_tag = some t) := by
  refine ⟨rfl, ?_, get_files_sends_nothing entries, ?_⟩
  · intro h
    have hm : r.meta = mkObjectMeta loc (get_file_data file false) := by
      cases oRange with
      | none =>
          simp [get_opts] at h
          rw [← h]
      | some range =>
          simp [get_opts] at h
          rcases hr : resolveRange ((get_file_data file false).bytes.getD []).length range with e | ⟨a, b⟩
          · rw [hr] at h
            simp at h
          · rw [hr] at h
            simp only at h
            rcases hs : bytesSlice ((get_file_data file false).bytes.getD []) a b with _ | data
            · rw [hs] at h
              simp at h
            · rw [hs] at h
              simp at h
              rw [← h]
    rw [hm]
    rfl
  · intro m hm
    rw [get_files_sends_nothing entries] at hm
    cases hm

/-- Witness for C6 at concrete inputs: a file served through `head`, through
`get` without a range, and a one-file data root whose listing sends
nothing. -/
theorem e_tag_policy_witness :
    (head ("k.arrow") ⟨"k.arrow", 42, [1, 2, 3]⟩).e_tag = some ("k.arrow")
  ∧ (mkObjectMeta ("k.arrow")
      (get_file_data ⟨"k.arrow", 42, [1, 2, 3]⟩ false)).e_tag = some ("k.arrow")
  ∧ (get_files [FsEntry.file ⟨"k.arrow", 42, [1, 2, 3]⟩]).1 = [] := by
  have h := e_tag_policy ("k.arrow") ⟨"k.arrow", 42, [1, 2, 3]⟩ none
    ⟨mkObjectMeta ("k.arrow") (get_file_data ⟨"k.arrow", 42, [1, 2, 3]⟩ false), 0, 3,
      [1, 2, 3]⟩
    [FsEntry.file ⟨"k.arrow", 42, [1, 2, 3]⟩]
  exact ⟨h.1, h.2.1 rfl, h.2.2.1⟩

/-- The data root's contents: name ↦ byte content of each persisted object. -/
abbrev Store := List (String × ByteSeq)

/-- `object_store::Error` as produced by this adapter: `NotImplemented`, or
`Generic { store, source }` wrapping an inner error. -/
inductive StoreError
| notImplemented
| generic (storeName : String) (source : StoreError)
deriving DecidableEq

/-- `put_opts` (opfs_store.rs:50-52): returns `Err(Error::NotImplemented)`
without touching the store. -/
def put_opts (st : Store) (location : String) (payload : ByteSeq) :
    Except StoreError Unit × Store :=
  (.error .notImplemented, st)

/-- `put_multipart_opts` (opfs_store.rs:54-63): always
`Err(Generic { store: "put_multipart_opts", source: NotImplemented })`. -/
def put_multipart_opts (st : Store) (location : String) :
    Except StoreError Unit × Store :=
  (.error (.generic ("put_multipart_opts") .notImplemented), st)

/-- `delete` (opfs_store.rs:136-141): always
`Err(Generic { store: "delete", source: NotImplemented })`. -/
def delete (st : Store) (location : String) : Except StoreError Unit × Store :=
  (.error (.generic ("delete") .notImplemented), st)

/-- `copy` (opfs_store.rs:157-162): always
`Err(Generic { store: "copy", source: NotImplemented })`. -/
def copy (st : Store) (src dst : String) : Except StoreError Unit × Store :=
  (.error (.generic ("copy") .notImplemented), st)

/-- `copy_if_not_exists` (opfs_store.rs:163-168): always
`Err(Generic { store: "copy_if_not_exists", source: NotImplemented })`. -/
def copy_if_not_exists (st : Store) (src dst : String) :
    Except StoreError Unit × Store :=
  (.error (.generic ("copy_if_not_exists") .notImplemented), st)

/-- `list_with_delimiter` (opfs_store.rs:151-156): always
`Err(Generic { store: "list_with_delimiter", source: NotImplemented })`. -/
def list_with_delimiter (st : Store) (oPath : Option String) :
    Except StoreError Unit × Store :=
  (.error (.generic ("list_with_delimiter") .notImplemented), st)

/-- C3: every mutation operation of the façade — `put`, `putMultipart`,
`delete`, `copy`, `copyIfNotExists`, `listWithDelimiter` — fails with an
unsupported/not-implemented error on every input and leaves the store
unchanged; none of them ever succeeds. -/
theorem mutation_ops_unsupported (st : Store) (l p src dst : String)
    (payload : ByteSeq) (oPath : Option String) :
    put_opts st l payload = (.error .notImplemented, st)
  ∧ put_multipart_opts st l = (.error (.generic ("put_multipart_opts") .notImplemented), st)
  ∧ delete st l = (.error (.generic ("delete") .notImplemented), st)
  ∧ copy st src dst = (.error (.generic ("copy") .notImplemented), st)
  ∧ copy_if_not_exists st src dst =
      (.error (.generic ("copy_if_not_exists") .notImplemented), st)
  ∧ list_with_delimiter st oPath =
      (.error (.generic ("list_with_delimiter") .notImplemented), st)
  ∧ (put_opts st l payload).1 ≠ .ok ()
  ∧ (put_multipart_opts st l).1 ≠ .ok ()
  ∧ (delete st l).1 ≠ .ok ()
  ∧ (copy st src dst).1 ≠ .ok ()
  ∧ (copy_if_not_exists st src dst).1 ≠ .ok ()
  ∧ (list_with_delimiter st oPath).1 ≠ .ok () := by
  refine ⟨rfl, rfl, rfl, rfl, rfl, rfl, ?_, ?_, ?_, ?_, ?_, ?_⟩ <;> simp [put_opts,
    put_multipart_opts, delete, copy, copy_if_not_exists, list_with_delimiter]

/-- `CsvConfig` (web_fs_utils.rs:36-44), deserialized from the caller's JSON:
every field is a caller-supplied string, held here as its UTF-8 bytes
(Rust's `String::len` counts bytes). -/
structure CsvConfig where
  delimiter : ByteSeq
  quote : ByteSeq
  comment : ByteSeq
  escape : ByteSeq
  null_regex : ByteSeq
  truncated : Bool
deriving DecidableEq

/-- `arrow::csv::reader::Format` as configured by the ingestion pipeline:
unset optional features are `none` (the library's `Format::default()`), and
the compiled `nullRegex` is modelled by the pattern it was built from. -/
structure Format where
  header : Bool := false
  delimiter : Option Nat := none
  quote : Option Nat := none
  comment : Option Nat := none
  escape : Option Nat := none
  null_regex : Option ByteSeq := none
  truncated_rows : Bool := false
deriving DecidableEq

/-- The parser-configuration build of `cp_csv_to_arrow`
(web_fs_utils.rs:80-102): a non-single-byte delimiter falls back to `b','`
(44); quote/comment/escape are set only when exactly one byte; a null pattern
whose length is in `1..=32` is passed to
`Regex::new(&cfg.null_regex).unwrap()`.  The host regex compiler's verdict on
a pattern is supplied as the oracle `regexValid` (a compiled regex is modelled
by its pattern); a rejected pattern makes the `unwrap` panic, modelled as
`none`.  Out-of-range patterns never reach the compiler. -/
def buildCsvFormat (regexValid : ByteSeq → Bool) (cfg : CsvConfig) : Option Format :=
  let delimiter : Nat :=
    match cfg.delimiter with
    | [c] => c
    | _ => 44
  let f0 : Format :=
    { header := true, delimiter := some delimiter, truncated_rows := cfg.truncated }
  let f1 := match cfg.quote with
    | [c] => { f0 with quote := some c }
    | _ => f0
  let f2 := match cfg.comment with
    | [c] => { f1 with comment := some c }
    | _ => f1
  let f3 := match cfg.escape with
    | [c] => { f2 with escape := some c }
    | _ => f2
  if 0 < cfg.null_regex.length ∧ cfg.null_regex.length ≤ 32 then
    if regexValid cfg.null_regex then some { f3 with null_regex := some cfg.null_regex }
    else none
  else some f3

/-- Field-level normal form of `buildCsvFormat`: the source's sequential
feature updates collapse into a single record, guarded by the null-pattern
length window and the compiler verdict. -/
theorem buildCsvFormat_fields (rv : ByteSeq → Bool) (cfg : CsvConfig) :
    buildCsvFormat rv cfg =
      if 0 < cfg.null_regex.length ∧ cfg.null_regex.length ≤ 32 then
        if rv cfg.null_regex then
          some { header := true
               , delimiter := some (match cfg.delimiter with | [c] => c | _ => 44)
               , quote := match cfg.quote with | [c] => some c | _ => none
               , comment := match cfg.comment with | [c] => some c | _ => none
               , escape := match cfg.escape with | [c] => some c | _ => none
               , null_regex := some cfg.null_regex
               , truncated_rows := cfg.truncated }
        else none
      else
        some { header := true
             , delimiter := some (match cfg.delimiter with | [c] => c | _ => 44)
             , quote := match cfg.quote with | [c] => some c | _ => none
             , comment := match cfg.comment with | [c] => some c | _ => none
             , escape := match cfg.escape with | [c] => some c | _ => none
             , null_regex := none
             , truncated_rows := cfg.truncated } := by
  obtain ⟨d, q, cm, es, nr, tr⟩ := cfg
  simp only [buildCsvFormat]
  rcases q with _ | ⟨q1, _ | ⟨q2, qt⟩⟩ <;>
    rcases cm with _ | ⟨m1, _ | ⟨m2, mt⟩⟩ <;>
    rcases es with _ | ⟨e1, _ | ⟨e2, et⟩⟩ <;>
    split_ifs with h1 h2 <;> rfl

/-- Helper: the optional-feature fields of any configuration the build
returns. -/
theorem buildCsvFormat_some_fields (rv : ByteSeq → Bool) (cfg : CsvConfig)
    (fmt : Format) (h : buildCsvFormat rv cfg = some fmt) :
    fmt.delimiter = some (match cfg.delimiter with | [c] => c | _ => 44)
  ∧ fmt.quote = (match cfg.quote with | [c] => some c | _ => none)
  ∧ fmt.comment = (match cfg.comment with | [c] => some c | _ => none)
  ∧ fmt.escape = (match cfg.escape with | [c] => some c | _ => none) := by
  rw [buildCsvFormat_fields] at h
  split_ifs at h with h1 h2 <;>
    first
    | exact Option.noConfusion h
    | (simp only [Option.some.injEq] at h
       subst h
       exact ⟨rfl, rfl, rfl, rfl⟩)

/-- C7 (amended): the parser configuration built from a `CsvParseConfig`
falls back to the comma for a delimiter that is not exactly one
byte-character and leaves quote/comment/escape unset (disabled) when not
exactly one byte-character; the null pattern is compiled and applied exactly
when its length is strictly between 0 and 33 AND the regex compiler accepts
it — a rejected pattern in that window panics the build (`unwrap`) instead,
while an empty or longer pattern disables null-matching without attempting
compilation, and never fails. -/
theorem buildCsvFormat_policy (rv : ByteSeq → Bool) (cfg : CsvConfig) :
    (∀ fmt, buildCsvFormat rv cfg = some fmt →
        (cfg.delimiter.length ≠ 1 → fmt.delimiter = some 44)
      ∧ (∀ c, cfg.delimiter = [c] → fmt.delimiter = some c)
      ∧ (cfg.quote.length ≠ 1 → fmt.quote = none)
      ∧ (∀ c, cfg.quote = [c] → fmt.quote = some c)
      ∧ (cfg.comment.length ≠ 1 → fmt.comment = none)
      ∧ (∀ c, cfg.comment = [c] → fmt.comment = some c)
      ∧ (cfg.escape.length ≠ 1 → fmt.escape = none)
      ∧ (∀ c, cfg.escape = [c] → fmt.escape = some c))
  ∧ (0 < cfg.null_regex.length → cfg.null_regex.length ≤ 32 →
      rv cfg.null_regex = true →
      ∃ fmt, buildCsvFormat rv cfg = some fmt ∧ fmt.null_regex = some cfg.null_regex)
  ∧ (0 < cfg.null_regex.length → cfg.null_regex.length ≤ 32 →
      rv cfg.null_regex = false →
      buildCsvFormat rv cfg = none)
  ∧ (cfg.null_regex.length = 0 ∨ 32 < cfg.null_regex.length →
      ∃ fmt, buildCsvFormat rv cfg = some fmt ∧ fmt.null_regex = none) := by
  refine ⟨?_, ?_, ?_, ?_⟩
  · intro fmt hf
    obtain ⟨hd, hq, hc, he⟩ := buildCsvFormat_some_fields rv cfg fmt hf
    refine ⟨?_, ?_, ?_, ?_, ?_, ?_, ?_, ?_⟩
    · intro h
      rcases hl : cfg.delimiter with _ | ⟨c1, _ | ⟨c2, t⟩⟩ <;> simp_all
    · intro c h
      rw [h] at hd
      simpa using hd
    · intro h
      rcases hl : cfg.quote with _ | ⟨c1, _ | ⟨c2, t⟩⟩ <;> simp_all
    · intro c h
      rw [h] at hq
      simpa using hq
    · intro h
      rcases hl : cfg.comment with _ | ⟨c1, _ | ⟨c2, t⟩⟩ <;> simp_all
    · intro c h
      rw [h] at hc
      simpa using hc
    · intro h
      rcases hl : cfg.escape with _ | ⟨c1, _ | ⟨c2, t⟩⟩ <;> simp_all
    · intro c h
      rw [h] at he
      simpa using he
  · intro h1 h2 h3
    rw [buildCsvFormat_fields, if_pos ⟨h1, h2⟩, if_pos h3]
    exact ⟨_, rfl, rfl⟩
  · intro h1 h2 h3
    have h3n : ¬(rv cfg.null_regex = true) := by simp [h3]
    rw [buildCsvFormat_fields, if_pos ⟨h1, h2⟩, if_neg h3n]
  · intro h
    have hno : ¬(0 < cfg.null_regex.length ∧ cfg.null_regex.length ≤ 32) := by
      rcases h with h | h <;> omega
    rw [buildCsvFormat_fields, if_neg hno]
    exact ⟨_, rfl, rfl⟩

/-- Witness for C7's amended theorem at concrete configurations: a two-byte
delimiter (falls back to comma), empty quote (disabled), one-byte comment
(enabled), three-byte escape (disabled) and a 33-byte null pattern (skipped
without failing); a valid in-range pattern `"na"` compiled and applied; a
rejected in-range pattern panicking the build. -/
theorem buildCsvFormat_policy_witness :
    (∃ fmt, buildCsvFormat (fun _ => true)
        ⟨[59, 59], [], [35], [1, 2, 3], List.replicate 33 97, true⟩ = some fmt
      ∧ fmt.null_regex = none ∧ fmt.delimiter = some 44 ∧ fmt.quote = none
      ∧ fmt.comment = some 35 ∧ fmt.escape = none)
  ∧ (∃ fmt, buildCsvFormat (fun _ => true)
        ⟨[44], [34], [], [], [110, 97], false⟩ = some fmt
      ∧ fmt.null_regex = some [110, 97])
  ∧ buildCsvFormat (fun _ => false) ⟨[44], [34], [], [], [40], false⟩ = none := by
  have h1 := buildCsvFormat_policy (fun _ => true)
    ⟨[59, 59], [], [35], [1, 2, 3], List.replicate 33 97, true⟩
  have h2 := buildCsvFormat_policy (fun _ => true) ⟨[44], [34], [], [], [110, 97], false⟩
  have h3 := buildCsvFormat_policy (fun _ => false) ⟨[44], [34], [], [], [40], false⟩
  refine ⟨?_, ?_, ?_⟩
  · obtain ⟨fmt, hf, hn⟩ := h1.2.2.2 (Or.inr (by decide))
    have hfields := h1.1 fmt hf
    exact ⟨fmt, hf, hn, hfields.1 (by decide), hfields.2.2.1 (by decide),
      hfields.2.2.2.2.2.1 35 rfl, hfields.2.2.2.2.2.2.1 (by decide)⟩
  · exact h2.2.1 (by decide) (by decide) rfl
  · exact h3.2.2.1 (by decide) (by decide) rfl

/-- C7 counterexample: the pattern `"("` (byte 40) has length 1, inside the
claimed window strictly between 0 and 33, so the claim says it is compiled
and applied; the host regex compiler rejects `"("` (unclosed group) — the
oracle records that verdict — and the source's `.unwrap()` panics the
configuration build instead of compiling and applying the pattern. -/
theorem buildCsvFormat_invalid_pattern_panics :
    buildCsvFormat (fun p => decide (p ≠ [40])) ⟨[44], [34], [], [], [40], false⟩ = none
  ∧ 0 < ([40] : ByteSeq).length ∧ ([40] : ByteSeq).length ≤ 32 := by
  exact ⟨rfl, by decide, by decide⟩

/-- A decoded typed column batch (opaque payload). -/
abbrev Batch := ByteSeq

/-- The in-memory IPC container serialization of the decoded batches
(`FileWriter` into `output`, web_fs_utils.rs:114-127), abstracted as the
concatenation of the batch payloads. -/
def encodeIpc (bs : List Batch) : ByteSeq :=
  bs.flatten

/-- The decode loop of `cp_csv_to_arrow` (web_fs_utils.rs:121-126): each `Ok`
batch is written to the in-memory container, the first `Err(error)` returns
that error immediately. -/
def writeAllBatches (batches : List (Except String Batch)) :
    Except String (List Batch) :=
  match batches with
  | [] => .ok []
  | .ok b :: rest => (writeAllBatches rest).map (fun bs => b :: bs)
  | .error e :: _ => .error e

/-- `cp_csv_to_arrow` (web_fs_utils.rs:71-149), from the re-scan decode
onwards: the full input is decoded into `batches`; only after the loop and
`writer.close()` succeed is the destination object `"<name>.arrow"` created
(with `create = true`) and the container written into the data root. -/
def cp_csv_to_arrow (st : Store) (name : String)
    (batches : List (Except String Batch)) : Except String Unit × Store :=
  match writeAllBatches batches with
  | .error e => (.error e, st)
  | .ok bs => (.ok (), (name ++ ".arrow", encodeIpc bs) :: st)

/-- Helper: a decode error among the batches makes `writeAllBatches` fail. -/
theorem writeAllBatches_error_of_mem (batches : List (Except String Batch))
    (h : ∃ msg, Except.error msg ∈ batches) :
    ∃ msg, writeAllBatches batches = .error msg := by
  obtain ⟨msg, hmem⟩ := h
  induction batches with
  | nil => cases hmem
  | cons b rest ih =>
      cases b with
      | error e => exact ⟨e, rfl⟩
      | ok v =>
          rcases List.mem_cons.mp hmem with h | h
          · cases h
          · obtain ⟨m, hm⟩ := ih h
            refine ⟨m, ?_⟩
            simp [writeAllBatches, hm, Except.map]

/-- Helper: if `writeAllBatches` succeeds, every batch decoded successfully. -/
theorem writeAllBatches_ok_all (batches : List (Except String Batch))
    (bs : List Batch) (h : writeAllBatches batches = .ok bs) :
    ∀ b ∈ batches, ∃ x, b = Except.ok x := by
  induction batches generalizing bs with
  | nil => intro b hb; cases hb
  | cons hd rest ih =>
      cases hd with
      | error e => simp [writeAllBatches] at h
      | ok v =>
          intro b hb
          rcases List.mem_cons.mp hb with hB | hB
          · exact ⟨v, hB⟩
          · simp only [writeAllBatches] at h
            rcases hw : writeAllBatches rest with e | tl
            · rw [hw] at h
              simp [Except.map] at h
            · exact ih tl hw b hB

/-- C8: if any row batch of the full-scan decode fails, the ingestion as a
whole returns that row-level error to the caller and the data root is left
unchanged — no object, not even a partial one, is written; conversely, if the
ingestion touched the data root at all, every batch had decoded successfully
and the call returned success, the store gaining exactly the new
`"<name>.arrow"` object. -/
theorem cp_csv_to_arrow_all_or_nothing (st : Store) (name : String)
    (batches : List (Except String Batch)) :
    ((∃ msg, Except.error msg ∈ batches) →
      (∃ msg, (cp_csv_to_arrow st name batches).1 = .error msg)
      ∧ (cp_csv_to_arrow st name batches).2 = st)
  ∧ ((cp_csv_to_arrow st name batches).2 ≠ st →
      (∀ b ∈ batches, ∃ x, b = Except.ok x)
      ∧ (cp_csv_to_arrow st name batches).1 = .ok ()
      ∧ ∃ bs, writeAllBatches batches = .ok bs
          ∧ (cp_csv_to_arrow st name batches).2 = (name ++ ".arrow", encodeIpc bs) :: st) := by
  constructor
  · intro h
    obtain ⟨msg, hw⟩ := writeAllBatches_error_of_mem batches h
    constructor
    · exact ⟨msg, by simp [cp_csv_to_arrow, hw]⟩
    · simp [cp_csv_to_arrow, hw]
  · intro h
    rcases hw : writeAllBatches batches with e | bs
    · exact absurd (by simp [cp_csv_to_arrow, hw]) h
    · exact ⟨writeAllBatches_ok_all batches bs hw, by simp [cp_csv_to_arrow, hw],
        bs, rfl, by simp [cp_csv_to_arrow, hw]⟩

/-- Witness for C8: one good batch followed by a decode error aborts the
ingestion with that error and leaves an empty data root empty. -/
theorem cp_csv_to_arrow_all_or_nothing_witness :
    (∃ msg, (cp_csv_to_arrow [] ("key") [Except.ok [1, 2], Except.error ("bad row")]).1 =
      .error msg)
  ∧ (cp_csv_to_arrow [] ("key") [Except.ok [1, 2], Except.error ("bad row")]).2 = [] := by
  exact (cp_csv_to_arrow_all_or_nothing [] ("key")
    [Except.ok [1, 2], Except.error ("bad row")]).1 ⟨"bad row", by simp⟩

/-- A JavaScript value crossing the bridge, reduced to the runtime shape tag
checked by `has_type::<T>()`. -/
structure JsVal where
  tag : String
deriving DecidableEq

/-- Settled state of the awaited promise: resolved with a value, or rejected
with an error value. -/
inductive PromiseOutcome
| resolved (v : JsVal)
| rejected (e : String)
deriving DecidableEq

/-- What the consumer of a bridged operation can observe: a delivered value,
a delivered error result, or a panic of the producer/caller. -/
inductive BridgeOutcome (α : Type)
| value (v : α)
| jsError (e : String)
| panic
deriving DecidableEq

/-- `get_from_promise` (web_fs_utils.rs:58-69): a resolved value is
type-checked with `assert!(value.has_type::<T>())` — a mismatch panics — and
the final `.unwrap()` panics on a rejected promise (`Err(e)`), so neither
failure is ever delivered as an error value. -/
def get_from_promise (expectedTag : String) (p : PromiseOutcome) :
    BridgeOutcome JsVal :=
  match p with
  | .resolved v => if v.tag = expectedTag then .value v else .panic
  | .rejected _ => .panic

/-- The consumer side of `head`/`get_opts` (`rx.await.unwrap()`,
opfs_store.rs:69/83): if the producer task panicked before sending, the
channel is closed and the `unwrap` panics in the caller; otherwise the
metadata record is built from the received response. -/
def head_await (location : String) (received : Option FileResponse) :
    BridgeOutcome ObjectMeta :=
  match received with
  | some r => .value (mkObjectMeta location r)
  | none => .panic

/-- C10 (amended): a producer failure — rejected promise or type-mismatch of
the returned value (the mismatch is actively checked by an assertion) — is
never delivered to the awaiting consumer as an error result: the bridge
panics, and the caller of `head`/`get` panics on the closed completion
channel instead of receiving the failure as an error; only a value of the
expected shape is ever delivered. -/
theorem bridge_failure_panics (t loc e : String) (v : JsVal) :
    get_from_promise t (.rejected e) = .panic
  ∧ (v.tag ≠ t → get_from_promise t (.resolved v) = .panic)
  ∧ (v.tag = t → get_from_promise t (.resolved v) = .value v)
  ∧ (∀ err, get_from_promise t (.rejected e) ≠ .jsError err)
  ∧ head_await loc none = .panic
  ∧ (∀ err, head_await loc none ≠ .jsError err) := by
  refine ⟨rfl, ?_, ?_, ?_, rfl, ?_⟩
  · intro h
    simp [get_from_promise, h]
  · intro h
    simp [get_from_promise, h]
  · intro err
    simp [get_from_promise]
  · intro err
    simp [head_await]

/-- Witness for C10's amended theorem: a directory handle arriving where a
file handle was expected panics the bridge, and a rejected promise panics
rather than surfacing as an error. -/
theorem bridge_failure_panics_witness :
    get_from_promise ("FileSystemFileHandle") (.resolved ⟨"FileSystemDirectoryHandle"⟩) =
      .panic
  ∧ get_from_promise ("FileSystemFileHandle") (.rejected ("QuotaExceededError")) = .panic := by
  constructor
  · exact (bridge_failure_panics ("FileSystemFileHandle") ("x") ("QuotaExceededError")
      ⟨"FileSystemDirectoryHandle"⟩).2.1 (by decide)
  · exact (bridge_failure_panics ("FileSystemFileHandle") ("x") ("QuotaExceededError")
      ⟨"FileSystemDirectoryHandle"⟩).1

/-- C10 counterexample: a rejected promise (e.g. a quota error) is not
propagated to the consumer as an error result — the bridge's `.unwrap()`
panics instead, so the claimed generic-adapter error never reaches the
caller. -/
theorem bridge_rejection_not_delivered :
    get_from_promise ("File") (.rejected ("QuotaExceededError")) = .panic
  ∧ get_from_promise ("File") (.rejected ("QuotaExceededError")) ≠
      .jsError ("QuotaExceededError") := by
  constructor
  · rfl
  · decide
